import Mathlib

/-!
Verification of the order-book normalization routine `format_orderbook_df`
(src/app.py, lines 101-119) of the BTC-Fundamental dashboard.

The Python function is embedded shallowly:

* Python floats are modelled as rationals (`ℚ`); all concrete values in the
  claims are exactly representable.
* A scalar value inside a raw level is a `Cell` (number, string, or a
  non-coercible object); `float(x)` on a cell is `floatOfCell`.
* A raw level is a `RawRow`: a list/tuple of cells, a string (indexable in
  Python: `s[i]` yields the one-character string at position `i`), or a
  non-indexable object (indexing raises, so the row is skipped).
* The `levels` argument is a `Levels`: either a list/tuple of raw rows or
  any non-list value (`None`, dict, number, ...), matching the
  `isinstance(levels, (list, tuple))` test on line 104.
* `pandas.DataFrame` results are modelled as an `OBFrame`: the ordered list
  of column names together with the ordered list of rows.
* `df.sort_values("price", ascending=...)` (line 116) is modelled by a
  comparison sort on the price field.  The pandas default `kind="quicksort"`
  leaves the relative order of equal keys unspecified; the model uses
  insertion sort, which agrees with any implementation on all inputs whose
  surviving prices are distinct, and in every price-order property proved
  below the order of equal keys is irrelevant.
* The function performs no I/O and touches no global state, so it is
  embedded as a pure total function.
-/

namespace OrderBook

/-- A scalar value found inside a raw order-book level: a number (Python int
or float, modelled as a rational), a string, or any other object on which
`float(...)` raises `TypeError` (e.g. `None`, a list, a dict). -/
inductive Cell where
  | num (v : ℚ)
  | str (s : String)
  | obj
deriving DecidableEq, Repr

/-- Digits of a numeral to its value, most significant first. -/
def digitsToNat (cs : List Char) : ℕ :=
  cs.foldl (fun n c => 10 * n + (c.toNat - 48)) 0

/-- Model of Python `float(...)` on an unsigned decimal literal, given as a
character list: `digits`, `digits.digits`, `digits.` or `.digits`.
Returns `none` when the literal is ill-formed (then `float` raises
`ValueError`). -/
def parseUnsigned (cs : List Char) : Option ℚ :=
  match cs.splitOn '.' with
  | [intPart] =>
      if !intPart.isEmpty && intPart.all Char.isDigit then
        some (digitsToNat intPart)
      else Option.none
  | [intPart, fracPart] =>
      if (!intPart.isEmpty || !fracPart.isEmpty)
          && intPart.all Char.isDigit && fracPart.all Char.isDigit then
        some ((digitsToNat intPart : ℚ)
          + (digitsToNat fracPart : ℚ) / (10 : ℚ) ^ fracPart.length)
      else Option.none
  | _ => Option.none

/-- Model of Python `float(...)` on a string: an optional sign followed by a
plain decimal literal.  (Exponents, `inf`/`nan` spellings, underscores and
surrounding whitespace are outside the modelled grammar; no claim below
depends on them.) -/
def pyFloat? (s : String) : Option ℚ :=
  match s.data with
  | '-' :: rest => (parseUnsigned rest).map (fun q => -q)
  | '+' :: rest => parseUnsigned rest
  | cs => parseUnsigned cs

/-- Model of Python `float(x)` on a cell: numbers coerce to themselves,
strings are parsed, any other object raises (`none`). -/
def floatOfCell : Cell → Option ℚ
  | .num v => some v
  | .str s => pyFloat? s
  | .obj => Option.none

/-- One raw level, i.e. one element of the `levels` argument: a list/tuple of
cells, a string (Python strings are indexable, `s[i]` being the
one-character string at position `i`), or a non-indexable object (indexing
raises `TypeError`, caught by the `except` on line 111). -/
inductive RawRow where
  | list (cells : List Cell)
  | str (s : String)
  | obj
deriving DecidableEq, Repr

/-- Model of Python `row[i]` for the raw rows above: out-of-range indexing
raises (`none`), indexing a string yields a one-character string. -/
def rowIndex : RawRow → ℕ → Option Cell
  | .list cells, i => cells[i]?
  | .str s, i => (s.data[i]?).map (fun c => Cell.str (String.mk [c]))
  | .obj, _ => Option.none

/-- The `levels` argument of `format_orderbook_df`: a list or tuple of raw
rows, or any other value (`None`, a dict, a number, ...), per the
`isinstance(levels, (list, tuple))` test on line 104. -/
inductive Levels where
  | list (rows : List RawRow)
  | notList
deriving DecidableEq, Repr

/-- One entry of the intermediate `rows` list built by the loop on lines
107-112: the dict `{"price": p, "qty": q, "notional": p*q}`. -/
structure BaseRow where
  price : ℚ
  qty : ℚ
  notional : ℚ
deriving DecidableEq, Repr

/-- One row of the final table: the three base columns plus the two
cumulative columns added on lines 117-118. -/
structure NormRow where
  price : ℚ
  qty : ℚ
  notional : ℚ
  cum_qty : ℚ
  cum_notional : ℚ
deriving DecidableEq, Repr

/-- A pandas `DataFrame` as produced by this function: its ordered column
labels and its ordered rows. -/
structure OBFrame where
  cols : List String
  rows : List NormRow
deriving DecidableEq, Repr

/-- The five-column schema of line 105 (and, in the non-empty branch, of
`pd.DataFrame(rows)` after the two column assignments on lines 117-118). -/
def obColumns : List String := ["price", "qty", "notional", "cum_qty", "cum_notional"]

/-- Body of the `try` block, lines 109-110: `p = float(row[0]);
q = float(row[1])`; any raised exception makes the whole row yield `none`
(the `except: continue` on lines 111-112). -/
def coerceRow (row : RawRow) : Option (ℚ × ℚ) := do
  let c0 ← rowIndex row 0
  let p ← floatOfCell c0
  let c1 ← rowIndex row 1
  let q ← floatOfCell c1
  pure (p, q)

/-- The loop of lines 107-112: each coercible row contributes
`{"price": p, "qty": q, "notional": p*q}` to `rows`, in input order;
rows raising an exception are skipped. -/
def coerceRows (lvls : List RawRow) : List BaseRow :=
  lvls.filterMap (fun row => (coerceRow row).map (fun pq => ⟨pq.1, pq.2, pq.1 * pq.2⟩))

/-- Comparison used by the ascending sort: price of `a` at most price of `b`. -/
def priceLE (a b : BaseRow) : Prop := a.price ≤ b.price

/-- Comparison used by the descending sort: price of `a` at least price of `b`. -/
def priceGE (a b : BaseRow) : Prop := b.price ≤ a.price

instance : DecidableRel priceLE := fun a b => inferInstanceAs (Decidable (a.price ≤ b.price))

instance : DecidableRel priceGE := fun a b => inferInstanceAs (Decidable (b.price ≤ a.price))

instance : IsTotal BaseRow priceLE := ⟨fun a b => le_total a.price b.price⟩

instance : IsTotal BaseRow priceGE := ⟨fun a b => le_total b.price a.price⟩

instance : IsTrans BaseRow priceLE := ⟨fun _ _ _ h h' => le_trans h h'⟩

instance : IsTrans BaseRow priceGE := ⟨fun _ _ _ h h' => le_trans h' h⟩

/-- Line 116: `df.sort_values("price", ascending=(side != "bids"))` — sort by
the price column, descending exactly when `side == "bids"`.  (pandas'
default `kind="quicksort"` leaves the order of equal prices unspecified;
the model commits to insertion sort, which any price-order property below
does not depend on.) -/
def sortRows (side : String) (rows : List BaseRow) : List BaseRow :=
  if side = "bids" then List.insertionSort priceGE rows
  else List.insertionSort priceLE rows

/-- Lines 117-118: the two cumulative columns, as running sums over the
sorted row order, starting from the given accumulators. -/
def addCumsFrom (cq cn : ℚ) : List BaseRow → List NormRow
  | [] => []
  | r :: rest =>
      ⟨r.price, r.qty, r.notional, cq + r.qty, cn + r.notional⟩ ::
        addCumsFrom (cq + r.qty) (cn + r.notional) rest

/-- Lines 117-118: `df["cum_qty"] = df["qty"].cumsum();
df["cum_notional"] = df["notional"].cumsum()`. -/
def addCums (rows : List BaseRow) : List NormRow := addCumsFrom 0 0 rows

/-- Shallow embedding of `format_orderbook_df(levels, side)`
(src/app.py, lines 101-119).  The source never raises: every branch returns
a frame, so the embedding is a total function. -/
def format_orderbook_df : Levels → String → OBFrame
  | .notList, _ => ⟨obColumns, []⟩
  | .list lvls, side =>
      if lvls.length = 0 then ⟨obColumns, []⟩
      else if (coerceRows lvls).isEmpty then ⟨obColumns, []⟩
      else ⟨obColumns, addCums (sortRows side (coerceRows lvls))⟩

/-- The rows surviving numeric coercion, over the whole `levels` argument:
empty when `levels` is not a list. -/
def survivors (levels : Levels) : List BaseRow :=
  match levels with
  | .list lvls => coerceRows lvls
  | .notList => []

/-- The call together with the final value of the `levels` argument.  The
source body only reads `levels` (the `isinstance` test, `len`, iteration,
and the element indexing `row[0]`/`row[1]`); it contains no assignment,
`append`, or other mutation of `levels` or its elements, so the argument
after the call is the argument before it. -/
def format_orderbook_df_call (levels : Levels) (side : String) : OBFrame × Levels :=
  (format_orderbook_df levels side, levels)

/-- Relation between two consecutive output rows: both cumulative columns are
non-decreasing, and strictly increasing whenever the second row's quantity
(respectively notional) is nonzero. -/
def cumStep (a b : NormRow) : Prop :=
  (a.cum_qty ≤ b.cum_qty ∧ (b.qty ≠ 0 → a.cum_qty < b.cum_qty)) ∧
  (a.cum_notional ≤ b.cum_notional ∧ (b.notional ≠ 0 → a.cum_notional < b.cum_notional))

instance : DecidableRel cumStep := fun a b =>
  inferInstanceAs (Decidable
    ((a.cum_qty ≤ b.cum_qty ∧ (b.qty ≠ 0 → a.cum_qty < b.cum_qty)) ∧
     (a.cum_notional ≤ b.cum_notional ∧ (b.notional ≠ 0 → a.cum_notional < b.cum_notional))))

/-- Condition on the first output row: its cumulative columns are non-negative,
and positive whenever its quantity (respectively notional) is nonzero. -/
def cumStart (x : NormRow) : Prop :=
  (0 ≤ x.cum_qty ∧ (x.qty ≠ 0 → 0 < x.cum_qty)) ∧
  (0 ≤ x.cum_notional ∧ (x.notional ≠ 0 → 0 < x.cum_notional))

instance : DecidablePred cumStart := fun x =>
  inferInstanceAs (Decidable
    ((0 ≤ x.cum_qty ∧ (x.qty ≠ 0 → 0 < x.cum_qty)) ∧
     (0 ≤ x.cum_notional ∧ (x.notional ≠ 0 → 0 < x.cum_notional))))

/- ### Helper lemmas -/

theorem addCumsFrom_map_base (cq cn : ℚ) (rows : List BaseRow) :
    (addCumsFrom cq cn rows).map (fun r => (r.price, r.qty, r.notional))
      = rows.map (fun r => (r.price, r.qty, r.notional)) := by
  induction rows generalizing cq cn with
  | nil => rfl
  | cons r rest ih => simp [addCumsFrom, ih]

theorem addCumsFrom_map_price (cq cn : ℚ) (rows : List BaseRow) :
    (addCumsFrom cq cn rows).map NormRow.price = rows.map BaseRow.price := by
  induction rows generalizing cq cn with
  | nil => rfl
  | cons r rest ih => simp [addCumsFrom, ih]

theorem sortRows_perm (side : String) (rows : List BaseRow) :
    (sortRows side rows).Perm rows := by
  unfold sortRows
  split
  · exact List.perm_insertionSort priceGE rows
  · exact List.perm_insertionSort priceLE rows

theorem mem_sortRows {r : BaseRow} {side : String} {rows : List BaseRow} :
    r ∈ sortRows side rows ↔ r ∈ rows :=
  (sortRows_perm side rows).mem_iff

theorem sortRows_sorted_le (rows : List BaseRow) (side : String) (h : ¬ side = "bids") :
    ((sortRows side rows).map BaseRow.price).Sorted (· ≤ ·) := by
  unfold sortRows
  rw [if_neg h]
  exact (List.sorted_insertionSort priceLE rows).map BaseRow.price (fun a b hab => hab)

theorem sortRows_sorted_ge (rows : List BaseRow) :
    ((sortRows "bids" rows).map BaseRow.price).Sorted (· ≥ ·) := by
  unfold sortRows
  rw [if_pos rfl]
  exact (List.sorted_insertionSort priceGE rows).map BaseRow.price (fun a b hab => hab)

theorem addCumsFrom_head (a b : ℚ) (rows : List BaseRow)
    (hq : ∀ r ∈ rows, 0 ≤ r.qty) (hn : ∀ r ∈ rows, 0 ≤ r.notional) :
    ∀ x ∈ (addCumsFrom a b rows).head?,
      (a ≤ x.cum_qty ∧ (x.qty ≠ 0 → a < x.cum_qty)) ∧
      (b ≤ x.cum_notional ∧ (x.notional ≠ 0 → b < x.cum_notional)) := by
  cases rows with
  | nil => intro x hx; simp [addCumsFrom] at hx
  | cons r rest =>
    intro x hx
    simp only [addCumsFrom, List.head?_cons, Option.mem_def, Option.some.injEq] at hx
    subst hx
    have hq0 : 0 ≤ r.qty := hq r (List.mem_cons_self r rest)
    have hn0 : 0 ≤ r.notional := hn r (List.mem_cons_self r rest)
    refine ⟨⟨by simp; linarith, fun h => ?_⟩, ⟨by simp; linarith, fun h => ?_⟩⟩
    · have hpos : 0 < r.qty := lt_of_le_of_ne hq0 (Ne.symm h)
      simp; linarith
    · have hpos : 0 < r.notional := lt_of_le_of_ne hn0 (Ne.symm h)
      simp; linarith

theorem addCumsFrom_chain (a b : ℚ) (rows : List BaseRow)
    (hq : ∀ r ∈ rows, 0 ≤ r.qty) (hn : ∀ r ∈ rows, 0 ≤ r.notional) :
    List.Chain' cumStep (addCumsFrom a b rows) := by
  induction rows generalizing a b with
  | nil => simp [addCumsFrom]
  | cons r rest ih =>
    have hqr : ∀ s ∈ rest, 0 ≤ s.qty := fun s hs => hq s (List.mem_cons_of_mem r hs)
    have hnr : ∀ s ∈ rest, 0 ≤ s.notional := fun s hs => hn s (List.mem_cons_of_mem r hs)
    rw [addCumsFrom, List.chain'_cons']
    refine ⟨fun y hy => ?_, ih (a + r.qty) (b + r.notional) hqr hnr⟩
    have h := addCumsFrom_head (a + r.qty) (b + r.notional) rest hqr hnr y hy
    exact ⟨⟨h.1.1, h.1.2⟩, ⟨h.2.1, h.2.2⟩⟩

section ClaimTheorems

/- Batteries marks the arithmetic on `ℚ` irreducible; concrete evaluation of
the embedding needs it unfolded. -/
attribute [local semireducible] Rat.add Rat.mul Rat.inv Rat.sub

/-- C1, counterexample: the code never filters negative quantities (the
`try` block on lines 108-111 only catches exceptions, and `float(-1)`
succeeds), so for the input `[[90, 2], [100, -1]]` with side `"asks"` the
`cum_qty` column is `2, 1` — it decreases, refuting the claim that the
cumulative columns are non-decreasing for every input list. -/
theorem cum_qty_not_monotone_cex :
    ¬ List.Chain' (fun a b => a.cum_qty ≤ b.cum_qty)
      ((format_orderbook_df
        (.list [.list [.num 90, .num 2], .list [.num 100, .num (-1)]]) "asks").rows) := by
  have h : (format_orderbook_df
      (.list [.list [.num 90, .num 2], .list [.num 100, .num (-1)]]) "asks").rows
      = [⟨90, 2, 180, 2, 180⟩, ⟨100, -1, -100, 1, 80⟩] := by decide
  rw [h]
  simp only [List.chain'_cons, List.chain'_singleton, and_true]
  norm_num

/-- C1, amended: for every side value and every input list of levels whose
surviving rows all have non-negative quantity and non-negative notional,
the `cum_qty` and `cum_notional` columns of the table returned by
`format_orderbook_df` are non-decreasing across the output row order, and
strictly increasing at every row whose quantity (respectively notional) is
nonzero (the first row being compared against zero). -/
theorem cum_monotone_of_nonneg (lvls : List RawRow) (side : String)
    (hq : ∀ r ∈ coerceRows lvls, 0 ≤ r.qty)
    (hn : ∀ r ∈ coerceRows lvls, 0 ≤ r.notional) :
    List.Chain' cumStep ((format_orderbook_df (.list lvls) side).rows) ∧
    ∀ x ∈ ((format_orderbook_df (.list lvls) side).rows).head?, cumStart x := by
  simp only [format_orderbook_df]
  split_ifs with h1 h2
  · simp
  · simp
  · have hq' : ∀ r ∈ sortRows side (coerceRows lvls), 0 ≤ r.qty :=
      fun r hr => hq r (mem_sortRows.mp hr)
    have hn' : ∀ r ∈ sortRows side (coerceRows lvls), 0 ≤ r.notional :=
      fun r hr => hn r (mem_sortRows.mp hr)
    refine ⟨addCumsFrom_chain 0 0 _ hq' hn', fun x hx => ?_⟩
    have h := addCumsFrom_head 0 0 _ hq' hn' x hx
    exact ⟨⟨h.1.1, h.1.2⟩, ⟨h.2.1, h.2.2⟩⟩

/-- C1, witness: the amended theorem applied to the Scenario A input
`[[100, 2], [90, 1], [110, 0.5]]` with side `"bids"`, whose surviving rows
all have non-negative quantity and notional. -/
theorem cum_monotone_of_nonneg_witness :
    (∀ r ∈ coerceRows [RawRow.list [Cell.num 100, Cell.num 2],
        RawRow.list [Cell.num 90, Cell.num 1],
        RawRow.list [Cell.num 110, Cell.num (1/2)]], 0 ≤ r.qty) ∧
    (∀ r ∈ coerceRows [RawRow.list [Cell.num 100, Cell.num 2],
        RawRow.list [Cell.num 90, Cell.num 1],
        RawRow.list [Cell.num 110, Cell.num (1/2)]], 0 ≤ r.notional) ∧
    List.Chain' cumStep ((format_orderbook_df
      (.list [.list [.num 100, .num 2], .list [.num 90, .num 1],
        .list [.num 110, .num (1/2)]]) "bids").rows) :=
  ⟨by decide, by decide,
    (cum_monotone_of_nonneg
      [.list [.num 100, .num 2], .list [.num 90, .num 1], .list [.num 110, .num (1/2)]]
      "bids" (by decide) (by decide)).1⟩

/-- C2: the output of `format_orderbook_df` is ordered best price first —
prices sorted descending when `side` is the bid marker (the string
`"bids"`, the value both callers pass for the bid side), and ascending for
the ask marker and for every other side value (line 116:
`ascending=(side != "bids")`). -/
theorem sorted_by_side (levels : Levels) (side : String) :
    (side = "bids" →
      ((format_orderbook_df levels side).rows.map NormRow.price).Sorted (· ≥ ·)) ∧
    (¬ side = "bids" →
      ((format_orderbook_df levels side).rows.map NormRow.price).Sorted (· ≤ ·)) := by
  cases levels with
  | notList => exact ⟨fun _ => by simp [format_orderbook_df], fun _ => by simp [format_orderbook_df]⟩
  | list lvls =>
    simp only [format_orderbook_df]
    split_ifs with h1 h2
    · exact ⟨fun _ => by simp, fun _ => by simp⟩
    · exact ⟨fun _ => by simp, fun _ => by simp⟩
    · constructor
      · intro h
        subst h
        show ((addCums (sortRows "bids" (coerceRows lvls))).map NormRow.price).Sorted (· ≥ ·)
        rw [addCums, addCumsFrom_map_price]
        exact sortRows_sorted_ge _
      · intro h
        show ((addCums (sortRows side (coerceRows lvls))).map NormRow.price).Sorted (· ≤ ·)
        rw [addCums, addCumsFrom_map_price]
        exact sortRows_sorted_le _ _ h

/-- C2, witness: the sortedness theorem applied to the concrete input
`[[100, 2], [90, 1]]`, on the bid side and on the ask side. -/
theorem sorted_by_side_witness :
    ((format_orderbook_df (.list [.list [.num 100, .num 2], .list [.num 90, .num 1]])
      "bids").rows.map NormRow.price).Sorted (· ≥ ·) ∧
    ((format_orderbook_df (.list [.list [.num 100, .num 2], .list [.num 90, .num 1]])
      "asks").rows.map NormRow.price).Sorted (· ≤ ·) :=
  ⟨(sorted_by_side _ "bids").1 rfl, (sorted_by_side _ "asks").2 (by decide)⟩

/-- C3, counterexample: the level `[-5, 1]` coerces at index 0 to the
negative price `-5`, yet `format_orderbook_df` keeps it — the output
contains a row derived from it — refuting the claim that rows coercing to
a negative price are discarded.  (The `try` block on lines 108-111 only
catches exceptions; it performs no finiteness or sign check.) -/
theorem negative_price_row_kept_cex :
    coerceRow (.list [.num (-5), .num 1]) = some (-5, 1) ∧
    (format_orderbook_df (.list [.list [.num (-5), .num 1]]) "asks").rows
      = [⟨-5, 1, -5, 1, -5⟩] := by
  decide

/-- C3, amended: a raw level is discarded exactly when evaluating
`float(row[0])` or `float(row[1])` raises (missing index, non-numeric
object, unparsable string); every level whose two entries coerce is kept,
regardless of the sign of the resulting values — the output rows are, up
to the sort's reordering, exactly the `(price, qty, notional)` triples of
the coercible levels. -/
theorem rows_exactly_coercible (lvls : List RawRow) (side : String) :
    ((format_orderbook_df (.list lvls) side).rows.map
        (fun r => (r.price, r.qty, r.notional))).Perm
      ((coerceRows lvls).map (fun r => (r.price, r.qty, r.notional))) := by
  simp only [format_orderbook_df]
  split_ifs with h1 h2
  · rw [List.length_eq_zero.mp h1]
    exact List.Perm.nil
  · rw [List.isEmpty_iff.mp h2]
    exact List.Perm.nil
  · show ((addCums (sortRows side (coerceRows lvls))).map
        (fun r => (r.price, r.qty, r.notional))).Perm _
    rw [addCums, addCumsFrom_map_base]
    exact (sortRows_perm side (coerceRows lvls)).map _

/-- C4: for every value of the `levels` argument and every side value
`format_orderbook_df` returns a frame (the embedding is a total function —
every branch of the source returns), always carrying exactly the five
columns `price, qty, notional, cum_qty, cum_notional`; and whenever
`levels` is not a list, is empty, or leaves no surviving rows, the result
is the empty table with that schema. -/
theorem total_and_empty_schema (levels : Levels) (side : String) :
    (format_orderbook_df levels side).cols = obColumns ∧
    (survivors levels = [] → format_orderbook_df levels side = ⟨obColumns, []⟩) := by
  cases levels with
  | notList => exact ⟨rfl, fun _ => rfl⟩
  | list lvls =>
    constructor
    · simp only [format_orderbook_df]
      split_ifs <;> rfl
    · intro h
      simp only [survivors] at h
      simp only [format_orderbook_df]
      split_ifs with h1 h2
      · rfl
      · rfl
      · exact absurd (by simp [h]) h2

/-- C4, witness: the schema theorem applied to a list whose only row fails
numeric coercion, so no rows survive. -/
theorem total_and_empty_schema_witness :
    survivors (.list [.list [.str "bad", .num 1]]) = [] ∧
    format_orderbook_df (.list [.list [.str "bad", .num 1]]) "bids" = ⟨obColumns, []⟩ :=
  ⟨by decide, (total_and_empty_schema (.list [.list [.str "bad", .num 1]]) "bids").2 (by decide)⟩

/-- C5 (Scenario B): for the input `[[100, 2], ["bad", 1], [90, 1]]` on the
ask side, the string `"bad"` fails `float` coercion, the middle row is
dropped without affecting the other rows' cumulative totals, and the
output is `[90, 1, 90, 1, 90]` then `[100, 2, 200, 3, 290]`. -/
theorem scenario_b_eval :
    format_orderbook_df
      (.list [.list [.num 100, .num 2], .list [.str "bad", .num 1], .list [.num 90, .num 1]])
      "asks"
      = ⟨obColumns, [⟨90, 1, 90, 1, 90⟩, ⟨100, 2, 200, 3, 290⟩]⟩ := by
  decide

/-- C7 (Scenario A): for the input `[[100, 2], [90, 1], [110, 0.5]]` on the
bid side, the output is exactly the three rows `[110, 0.5, 55, 0.5, 55]`,
`[100, 2, 200, 2.5, 255]`, `[90, 1, 90, 3.5, 345]`, in that order. -/
theorem scenario_a_eval :
    format_orderbook_df
      (.list [.list [.num 100, .num 2], .list [.num 90, .num 1], .list [.num 110, .num (1/2)]])
      "bids"
      = ⟨obColumns, [⟨110, 1/2, 55, 1/2, 55⟩, ⟨100, 2, 200, 5/2, 255⟩, ⟨90, 1, 90, 7/2, 345⟩]⟩ := by
  decide

/-- C8: `format_orderbook_df` is deterministic and side-effect free — the
source reads no global state and performs no I/O, so it embeds as a pure
function, and two calls on equal arguments yield identical frames
(identical rows in identical order). -/
theorem deterministic (l₁ l₂ : Levels) (s₁ s₂ : String)
    (hl : l₁ = l₂) (hs : s₁ = s₂) :
    format_orderbook_df l₁ s₁ = format_orderbook_df l₂ s₂ := by
  rw [hl, hs]

/-- C8, witness: two calls on the same concrete input and side agree. -/
theorem deterministic_witness :
    format_orderbook_df (.list [.list [.num 100, .num 2]]) "bids"
      = format_orderbook_df (.list [.list [.num 100, .num 2]]) "bids" :=
  deterministic (.list [.list [.num 100, .num 2]]) (.list [.list [.num 100, .num 2]])
    "bids" "bids" rfl rfl

/-- C9: `format_orderbook_df` never mutates its `levels` argument: the
source body only reads it (the `isinstance` test, `len`, iteration and
element indexing), so the value of `levels` after the call is its value
before the call. -/
theorem no_mutation_of_levels (levels : Levels) (side : String) :
    (format_orderbook_df_call levels side).2 = levels := rfl

/-- C10: a string element of `levels` is not dropped when its first two
characters each parse as a float: strings are indexable in Python, so
`format_orderbook_df` treats such an element as a row whose price is
`float` of its character at index 0 and whose qty is `float` of its
character at index 1, including it in the output and in the cumulative
totals. -/
theorem string_row_char_indexing (s : String) (a b : Char) (p q : ℚ) (side : String)
    (h0 : s.data[0]? = some a) (h1 : s.data[1]? = some b)
    (hp : pyFloat? (String.mk [a]) = some p) (hq : pyFloat? (String.mk [b]) = some q) :
    (format_orderbook_df (.list [.str s]) side).rows = [⟨p, q, p * q, q, p * q⟩] := by
  have hc : coerceRow (.str s) = some (p, q) := by
    simp [coerceRow, rowIndex, floatOfCell, h0, h1, hp, hq]
  have hcr : coerceRows [.str s] = [⟨p, q, p * q⟩] := by
    simp [coerceRows, hc]
  simp [format_orderbook_df, hcr, sortRows, addCums, addCumsFrom]

/-- C10, witness: the string element `"95"` yields the row with price
`float("9") = 9` and qty `float("5") = 5`, included in the output and in
the cumulative totals. -/
theorem string_row_char_indexing_witness :
    (format_orderbook_df (.list [.str "95"]) "asks").rows = [⟨9, 5, 9 * 5, 5, 9 * 5⟩] :=
  string_row_char_indexing "95" '9' '5' 9 5 "asks" (by decide) (by decide) (by decide)
    (by decide)

end ClaimTheorems

end OrderBook
